import Mathlib

/-
Verification development for the STEP1_SAR_BURN_SCAR scripts
(s1_avg_before_after.py, s1_relative_burn_ratio_from_pairs.py,
s1_extract_images.py, tiff2png.py).

Shallow embedding conventions:
  * Machine floats are modelled as exact rationals (ℚ); the IEEE special
    values NaN, +Inf and -Inf that the scripts handle explicitly are
    modelled by the inductive type `Val`.
  * 2-D raster grids are modelled as functions from a flattened pixel
    index (ℕ) to a value, together with a Boolean mask of the same shape.
  * Fallible Python code (an uncaught exception) is modelled by an
    explicit error constructor.
  * Regular-expression searches from the source are modelled by
    hand-rolled leftmost matchers over lists of characters; in both
    patterns the optional separator `[-_]?` is deterministic (a separator
    character can never also start the following digit group), so greedy
    single-character consumption is equivalent to full backtracking.
-/

/-! ## IEEE-style cell values (shared by all scripts) -/

/-- A raster cell value as the scripts see it: a finite number (modelled
exactly as a rational) or one of the non-finite IEEE floats. -/
inductive Val
  | fin (q : ℚ)
  | nan
  | inf
  | ninf
deriving DecidableEq

/-- Model of `np.isfinite` on a single value. -/
def Val.isFinite : Val → Bool
  | .fin _ => true
  | _ => false

/-- Model of `math.isnan` on a single value. -/
def Val.isNan : Val → Bool
  | .nan => true
  | _ => false

/-- IEEE `==` comparison: NaN compares unequal to everything (itself
included); infinities compare equal to themselves. -/
def Val.ieeeEq : Val → Val → Bool
  | .fin a, .fin b => a = b
  | .inf, .inf => true
  | .ninf, .ninf => true
  | _, _ => false

/-- Numeric payload of a value; non-finite values carry no usable payload
(they are always masked by the readers below) and are mapped to 0. -/
def Val.toQ : Val → ℚ
  | .fin q => q
  | _ => 0

/-! ## Dates and filename date extraction (s1_avg_before_after.py) -/

/-- A `datetime.date` value (only ever constructed validated). -/
structure PyDate where
  y : ℕ
  m : ℕ
  d : ℕ
deriving DecidableEq

/-- Python `date` comparison `<` (lexicographic on year, month, day). -/
def PyDate.lt (a b : PyDate) : Bool :=
  a.y < b.y || (a.y = b.y && (a.m < b.m || (a.m = b.m && a.d < b.d)))

/-- Gregorian leap-year test, as `datetime` implements it. -/
def isLeap (y : ℕ) : Bool :=
  y % 4 = 0 && (y % 100 ≠ 0 || y % 400 = 0)

/-- Days in a month, as `datetime` implements it. -/
def daysInMonth (y m : ℕ) : ℕ :=
  if m = 2 then (if isLeap y then 29 else 28)
  else if m = 4 || m = 6 || m = 9 || m = 11 then 30
  else 31

/-- The `date(y, m, d)` constructor: validates the month and day and
raises `ValueError` (modelled as `none`) when they are out of range. -/
def mkDate (y m d : ℕ) : Option PyDate :=
  if 1 ≤ m && m ≤ 12 && 1 ≤ d && d ≤ daysInMonth y m then some ⟨y, m, d⟩ else none

/-- Result of `extract_date_from_name` as actually executed: a date, a
`None` (no pattern matched), or an uncaught `ValueError` escaping from the
`date` constructor. -/
inductive DateRes
  | found (d : PyDate)
  | noDate
  | raised
deriving DecidableEq

/-- Numeric value of a decimal digit character. -/
def digitVal (c : Char) : ℕ := c.toNat - 48

/-- Attempt to match the regex `(20\d{2})([01]\d)([0-3]\d)T` at the head
of the character list, returning the captured (year, month, day). -/
def pat1At : List Char → Option (ℕ × ℕ × ℕ)
  | c0 :: c1 :: c2 :: c3 :: c4 :: c5 :: c6 :: c7 :: c8 :: _ =>
    if c0 = '2' && c1 = '0' && c2.isDigit && c3.isDigit
        && (c4 = '0' || c4 = '1') && c5.isDigit
        && ('0' ≤ c6 && c6 ≤ '3') && c7.isDigit && c8 = 'T' then
      some (2000 + 10 * digitVal c2 + digitVal c3,
            10 * digitVal c4 + digitVal c5,
            10 * digitVal c6 + digitVal c7)
    else none
  | _ => none

/-- `re.search` for pattern 1: leftmost match anywhere in the string. -/
def searchPat1 : List Char → Option (ℕ × ℕ × ℕ)
  | [] => none
  | c :: cs =>
    match pat1At (c :: cs) with
    | some r => some r
    | none => searchPat1 cs

/-- Consume one optional `[-_]` separator character. -/
def sepSkip : List Char → List Char
  | c :: cs => if c = '-' || c = '_' then cs else c :: cs
  | [] => []

/-- Attempt to match the regex `(20\d{2})[-_]?([01]\d)[-_]?([0-3]\d)` at
the head of the character list. -/
def pat2At (l : List Char) : Option (ℕ × ℕ × ℕ) :=
  match l with
  | c0 :: c1 :: c2 :: c3 :: rest =>
    if c0 = '2' && c1 = '0' && c2.isDigit && c3.isDigit then
      match sepSkip rest with
      | c4 :: c5 :: rest2 =>
        if (c4 = '0' || c4 = '1') && c5.isDigit then
          match sepSkip rest2 with
          | c6 :: c7 :: _ =>
            if ('0' ≤ c6 && c6 ≤ '3') && c7.isDigit then
              some (2000 + 10 * digitVal c2 + digitVal c3,
                    10 * digitVal c4 + digitVal c5,
                    10 * digitVal c6 + digitVal c7)
            else none
          | _ => none
        else none
      | _ => none
    else none
  | _ => none

/-- `re.search` for pattern 2: leftmost match anywhere in the string. -/
def searchPat2 : List Char → Option (ℕ × ℕ × ℕ)
  | [] => none
  | c :: cs =>
    match pat2At (c :: cs) with
    | some r => some r
    | none => searchPat2 cs

/-- `extract_date_from_name`: try pattern 1 (`YYYYMMDDT`), then pattern 2
(`YYYY[-_]?MM[-_]?DD`); feed the captured digit groups to the `date`
constructor.  An out-of-range month or day raises (uncaught). -/
def extract_date_from_name (s : String) : DateRes :=
  match searchPat1 s.toList with
  | some (y, m, d) =>
    match mkDate y m d with
    | some dt => .found dt
    | none => .raised
  | none =>
    match searchPat2 s.toList with
    | some (y, m, d) =>
      match mkDate y m d with
      | some dt => .found dt
      | none => .raised
    | none => .noDate

/-- The fixed threshold date `THRESHOLD = date(2023, 7, 18)`. -/
def THRESHOLD : PyDate := ⟨2023, 7, 18⟩

/-- The two temporal groups of the averager. -/
inductive TGrp
  | before
  | after
deriving DecidableEq

/-- Group assignment in `main`: `"before" if acq < THRESHOLD else "after"`. -/
def groupOf (dt : PyDate) : TGrp :=
  if PyDate.lt dt THRESHOLD then .before else .after

/-! ## Masked reader (read_band_masked, all four scripts) -/

/-- The mask computed by `read_band_masked`: non-finite cells are masked;
if the raster declares a no-data value that is not NaN, cells comparing
IEEE-equal to it are masked as well. -/
def maskOf (arr : ℕ → Val) (nd : Option Val) (i : ℕ) : Bool :=
  !(arr i).isFinite ||
    (match nd with
     | none => false
     | some v => if v.isNan then false else Val.ieeeEq (arr i) v)

/-! ## Grid descriptors and alignment (s1_avg_before_after.py) -/

/-- A reference grid: CRS identifier, affine transform (6 coefficients),
width and height. -/
structure GridRef where
  crs : ℕ
  transform : ℚ × ℚ × ℚ × ℚ × ℚ × ℚ
  width : ℕ
  height : ℕ
deriving DecidableEq

/-- `same_grid` from the averager: field-by-field comparison of CRS,
transform, width and height. -/
def same_grid (ds ref : GridRef) : Bool :=
  ds.crs = ref.crs && ds.transform = ref.transform
    && ds.width = ref.width && ds.height = ref.height

/-- `grids_match` from the burn-ratio script (same comparison). -/
def grids_match (p1 p2 : GridRef) : Bool :=
  p1.crs = p2.crs && p1.transform = p2.transform
    && p1.width = p2.width && p1.height = p2.height

/-- The per-file alignment step of the averager main loop: on the same
grid, take `data = band.filled(nan)` and `valid = ~band.mask & isfinite(data)`
with no resampling; otherwise hand the band to `reproject_to_ref`
(modelled as an arbitrary function parameter, since only the same-grid
branch is in scope of the claims). -/
def alignToRef
    (reproj : ((ℕ → Val) × (ℕ → Bool)) → GridRef → GridRef → ((ℕ → Val) × (ℕ → Bool)))
    (dsGrid ref : GridRef) (band : (ℕ → Val) × (ℕ → Bool)) :
    (ℕ → Val) × (ℕ → Bool) :=
  if same_grid dsGrid ref then
    (fun i => if band.2 i then Val.nan else band.1 i,
     fun i => !band.2 i && (if band.2 i then Val.nan else band.1 i).isFinite)
  else reproj band dsGrid ref

/-! ## Accumulator/Averager (s1_avg_before_after.py main) -/

/-- The two polarizations. -/
inductive Pol
  | VV
  | VH
deriving DecidableEq

/-- One contributing record of the averager, already aligned to the
reference grid: temporal group, polarization, per-pixel data and validity. -/
structure AvgRec where
  which : TGrp
  pol : Pol
  data : ℕ → ℚ
  valid : ℕ → Bool

/-- Accumulator state: for each (group, polarization), an optional pair of
a running sum grid and a running count grid (`None` until the first
contributing file initializes it). -/
def AccSt : Type := TGrp → Pol → Option ((ℕ → ℚ) × (ℕ → ℕ))

/-- One iteration of the accumulation loop: lazily initialize the
(group, polarization) pair to zero grids, then add `data` and bump the
count at valid pixels. -/
def accStep (s : AccSt) (r : AvgRec) : AccSt :=
  fun g p =>
    if g = r.which ∧ p = r.pol then
      let sc := (s g p).getD (fun _ => 0, fun _ => 0)
      some (fun i => if r.valid i then sc.1 i + r.data i else sc.1 i,
            fun i => if r.valid i then sc.2 i + 1 else sc.2 i)
    else s g p

/-- Accumulation over the whole file list, in list order. -/
def accumulate (rs : List AvgRec) : AccSt :=
  rs.foldl accStep (fun _ _ => none)

/-- The records contributing to a given (group, polarization) pair. -/
def recsFor (rs : List AvgRec) (g : TGrp) (p : Pol) : List AvgRec :=
  rs.filter (fun r => decide (r.which = g) && decide (r.pol = p))

/-- Specification-level count: how many contributing records are valid at
pixel `i`. -/
def cntAt (rs : List AvgRec) (g : TGrp) (p : Pol) (i : ℕ) : ℕ :=
  ((recsFor rs g p).filter (fun r => r.valid i)).length

/-- Specification-level sum of the contributing valid values at pixel `i`. -/
def sumAt (rs : List AvgRec) (g : TGrp) (p : Pol) (i : ℕ) : ℚ :=
  (((recsFor rs g p).filter (fun r => r.valid i)).map (fun r => r.data i)).sum

/-- The output no-data sentinel `NODATA_OUT = -9999.0`. -/
def NODATA_OUT : ℚ := -9999

/-- The output raster the averager writes for one (group, polarization)
pair over a grid of `n` pixels, or `none` when it skips: skipped when no
file contributed (accumulator still `None`) or when `cnt_arr.max() == 0`;
otherwise `avg = sum/cnt` where `cnt > 0` and the sentinel elsewhere. -/
def avgOutput (n : ℕ) (rs : List AvgRec) (g : TGrp) (p : Pol) : Option (ℕ → ℚ) :=
  match accumulate rs g p with
  | none => none
  | some sc =>
    if (List.range n).any (fun i => decide (0 < sc.2 i)) then
      some (fun i => if 0 < sc.2 i then sc.1 i / (sc.2 i : ℚ) else NODATA_OUT)
    else none

/-! ## String helpers (strip/upper/substring, used by the band resolvers) -/

/-- Python `s.strip().upper()` on a band description or tag value. -/
def stripUpper (s : String) : String := s.trim.toUpper

/-- Python `s.upper()` on a filename. -/
def strUpper (s : String) : String := s.toUpper

/-- Does the second list occur as a leading segment of the first? -/
def startsWithL : List Char → List Char → Bool
  | _, [] => true
  | [], _ :: _ => false
  | a :: as, b :: bs => a = b && startsWithL as bs

/-- Does `nd` occur as a contiguous run anywhere in the list? -/
def hasSubL (nd : List Char) : List Char → Bool
  | [] => startsWithL [] nd
  | c :: t => startsWithL (c :: t) nd || hasSubL nd t

/-- Python substring containment `nd in hay`. -/
def strHasSub (hay nd : String) : Bool := hasSubL nd.toList hay.toList

/-! ## Band resolver (find_vv_vh_indices / find_pol_indices) -/

/-- Raster metadata and contents as the scripts consume them: band count,
per-band description strings, per-band tag dictionaries, per-band pixel
data, and the declared no-data value. -/
structure DS where
  count : ℕ
  descriptions : List (Option String)
  tags : ℕ → String → Option String
  band : ℕ → ℕ → Val
  nodata : Option Val

/-- The tag keys probed by the resolver, in probe order. -/
def tagKeys : List String := ["BAND_NAME", "name", "band_name", "long_name"]

/-- One iteration of the description loop: skip empty entries, strip and
uppercase, and set each polarization index if still unset. -/
def descStep (x : Option ℕ × Option ℕ) (e : ℕ × Option String) :
    Option ℕ × Option ℕ :=
  match e.2 with
  | none => x
  | some s =>
    if s = "" then x
    else
      let t := stripUpper s
      (if t = "VV" && x.1.isNone then some e.1 else x.1,
       if t = "VH" && x.2.isNone then some e.1 else x.2)

/-- One iteration of the inner tag-key loop for band `i`. -/
def tagStepKey (tg : String → Option String) (i : ℕ)
    (x : Option ℕ × Option ℕ) (k : String) : Option ℕ × Option ℕ :=
  match tg k with
  | none => x
  | some v =>
    if v = "" then x
    else
      let t := stripUpper v
      (if t = "VV" && x.1.isNone then some i else x.1,
       if t = "VH" && x.2.isNone then some i else x.2)

/-- The tag loop body for one band: fold the key probes in order. -/
def tagBandFold (tags : ℕ → String → Option String)
    (x : Option ℕ × Option ℕ) (i : ℕ) : Option ℕ × Option ℕ :=
  tagKeys.foldl (tagStepKey (tags i) i) x

/-- `find_vv_vh_indices` (averager) and `find_pol_indices` (burn-ratio
script) — both scripts contain the same resolver: descriptions loop, tag
loop, single-band filename hint, and the positional fallback `[1, 2]` for
rasters with at least two bands when neither polarization was found. -/
def find_vv_vh_indices (ds : DS) (filename : String) : Option ℕ × Option ℕ :=
  let x1 := (List.enumFrom 1 ds.descriptions).foldl descStep (none, none)
  let x2 := ((List.range ds.count).map (· + 1)).foldl (tagBandFold ds.tags) x1
  let name := strUpper filename
  let x3 :=
    if ds.count = 1 then
      (if strHasSub name "VV" && x2.1.isNone then some 1 else x2.1,
       if strHasSub name "VH" && x2.2.isNone then some 1 else x2.2)
    else x2
  if 2 ≤ ds.count && x3.1.isNone && x3.2.isNone then (some 1, some 2) else x3

/-- Spec-side matcher for one enumerated description entry. -/
def descMatch (pol : String) (e : ℕ × Option String) : Option ℕ :=
  match e.2 with
  | none => none
  | some s => if s = "" then none else if stripUpper s = pol then some e.1 else none

/-- Modelled from the spec: step 1 of the resolver chain — the first
1-based band index whose description strips and uppercases to `pol`. -/
def descFind (descs : List (Option String)) (pol : String) : Option ℕ :=
  (List.enumFrom 1 descs).findSome? (descMatch pol)

/-- Does one tag key of band `i` match `pol` after strip/uppercase? -/
def tagMatchKey (pol : String) (tg : String → Option String) (k : String) : Bool :=
  match tg k with
  | none => false
  | some v => if v = "" then false else decide (stripUpper v = pol)

/-- Does band `i` carry `pol` under any of the probed tag keys? -/
def bandMatch (pol : String) (tags : ℕ → String → Option String) (i : ℕ) : Bool :=
  tagKeys.any (tagMatchKey pol (tags i))

/-- Modelled from the spec: step 2 of the resolver chain — the first band
whose tags match `pol` under one of the probed keys. -/
def tagFind (count : ℕ) (tags : ℕ → String → Option String) (pol : String) :
    Option ℕ :=
  ((List.range count).map (· + 1)).findSome?
    (fun i => if bandMatch pol tags i then some i else none)

/-- Modelled from the spec: step 3 of the resolver chain — for a raster
with exactly one band, a filename containing `pol` (case-insensitive)
assigns that polarization to band 1. -/
def fnameHint (count : ℕ) (filename pol : String) : Option ℕ :=
  if count = 1 && strHasSub (strUpper filename) pol then some 1 else none

/-- Modelled from the spec (section 4.1): the resolver as an ordered chain
of independent lookups composed first-match-wins, with the positional
fallback band 1 = VV, band 2 = VH for rasters with at least two bands when
no earlier step resolved either polarization. -/
def resolveSpec (ds : DS) (filename : String) : Option ℕ × Option ℕ :=
  let vv := (descFind ds.descriptions "VV").orElse (fun _ =>
    (tagFind ds.count ds.tags "VV").orElse (fun _ =>
      fnameHint ds.count filename "VV"))
  let vh := (descFind ds.descriptions "VH").orElse (fun _ =>
    (tagFind ds.count ds.tags "VH").orElse (fun _ =>
      fnameHint ds.count filename "VH"))
  if 2 ≤ ds.count && vv.isNone && vh.isNone then (some 1, some 2) else (vv, vh)

/-! ## Burn-ratio calculator (s1_relative_burn_ratio_from_pairs.py) -/

/-- The division guard `EPS = 1e-12`. -/
def EPS : ℚ := 1 / 1000000000000

/-- A masked sample with finite numeric data: per-pixel value and per-pixel
mask (`true` = invalid).  Non-finite raw cells are always masked by the
reader, so their numeric payload is irrelevant and carried as 0. -/
def QSample : Type := (ℕ → ℚ) × (ℕ → Bool)

/-- `compute_rbr`: combine the masks, fill masked cells with 0, form
`num = after - before` and `den = after + before`, divide by `den + EPS`,
and mask the result where either input was masked or where the division
was undefined (`np.ma.divide` masks a zero divisor; over exact rationals
the additional `~np.isfinite` narrowing catches nothing more).  Returns
(ratio data, result mask). -/
def compute_rbr (b a : QSample) : QSample :=
  let mask := fun i => b.2 i || a.2 i
  let bf := fun i => if b.2 i then 0 else b.1 i
  let af := fun i => if a.2 i then 0 else a.1 i
  let num := fun i => af i - bf i
  let den := fun i => af i + bf i
  (fun i => num i / (den i + EPS),
   fun i => mask i || decide (den i + EPS = 0))

/-- The write step of the burn-ratio main loop: start from a grid full of
the sentinel and copy the ratio at valid pixels.  Returns the written
grid together with the validity mask. -/
def rbrOut (b a : QSample) : (ℕ → ℚ) × (ℕ → Bool) :=
  let r := compute_rbr b a
  (fun i => if r.2 i then NODATA_OUT else r.1 i, fun i => !r.2 i)

/-- `read_band_masked` for the burn-ratio pipeline: numeric data plus the
mask from the shared reader. -/
def read_band_masked_q (ds : DS) (b : ℕ) : QSample :=
  (fun i => (ds.band b i).toQ, fun i => maskOf (ds.band b) ds.nodata i)

/-- Project the resolver result onto one polarization. -/
def polIdx (x : Option ℕ × Option ℕ) : Pol → Option ℕ
  | .VV => x.1
  | .VH => x.2

/-- One iteration of the burn-ratio main loop for polarization `pol`:
`none` when the polarization is not resolved in both inputs (skipped with
a diagnostic); otherwise read both bands, align AFTER onto BEFORE's grid
when the grids differ (`reproj` models `reproject_to_ref`), optionally
convert dB inputs to linear (`toLin` models `10^(x/10)`, which is not
rational-representable in general and is therefore a parameter), compute
the ratio and write the output unconditionally. -/
def rbr_pol_result (dsB dsA : DS) (nameB nameA : String)
    (profB profA : GridRef)
    (reproj : QSample → GridRef → GridRef → QSample)
    (toLin : ℚ → ℚ) (db : Bool) (pol : Pol) :
    Option ((ℕ → ℚ) × (ℕ → Bool)) :=
  match polIdx (find_vv_vh_indices dsB nameB) pol,
        polIdx (find_vv_vh_indices dsA nameA) pol with
  | some bi, some ai =>
    let bBand := read_band_masked_q dsB bi
    let aBand0 := read_band_masked_q dsA ai
    let aBand := if grids_match profB profA then aBand0 else reproj aBand0 profA profB
    let bBand2 := if db then (fun i => toLin (bBand.1 i), bBand.2) else bBand
    let aBand2 := if db then (fun i => toLin (aBand.1 i), aBand.2) else aBand
    some (rbrOut bBand2 aBand2)
  | _, _ => none

/-! ## Preview renderers (s1_extract_images.py, tiff2png.py) -/

/-- Insert into an ascending-sorted list. -/
def insSorted (a : ℚ) : List ℚ → List ℚ
  | [] => [a]
  | b :: t => if a ≤ b then a :: b :: t else b :: insSorted a t

/-- Ascending sort (the sorted order `np.percentile` works on). -/
def sortQ : List ℚ → List ℚ
  | [] => []
  | a :: t => insSorted a (sortQ t)

/-- `np.percentile` with the default linear interpolation: index
`h = q/100 * (n-1)` into the sorted data, interpolating between the
neighbouring order statistics.  Callers guarantee nonempty input. -/
def percentileNp (v : List ℚ) (q : ℚ) : ℚ :=
  let s := sortQ v
  let n := s.length
  let h := q * ((n : ℚ) - 1) / 100
  let lo := (⌊h⌋).toNat
  let hi := (⌈h⌉).toNat
  let a := s.getD lo 0
  let b := s.getD hi 0
  a + (h - (lo : ℚ)) * (b - a)

/-- `percentiles` from tiff2png.py: `None` on an empty compressed sample,
else the two requested percentiles of the valid values. -/
def png_percentiles (v : List ℚ) (lo hi : ℚ) : Option (ℚ × ℚ) :=
  if v = [] then none
  else some (percentileNp v lo, percentileNp v hi)

/-- The display-range computation of tiff2png.py `main`: a caller-supplied
fixed range is used as given; otherwise the percentile stretch of the
valid values, with only the degenerate-range fix `vmax = vmin + 1e-6` —
no clamping of any kind. -/
def png_display_range (fixed : Option (ℚ × ℚ)) (vals : List ℚ)
    (plo phi : ℚ) : Option (ℚ × ℚ) :=
  match fixed with
  | some r => some r
  | none =>
    match png_percentiles vals plo phi with
    | none => none
    | some (vmin, vmax) =>
      if vmax ≤ vmin then some (vmin, vmin + 1 / 1000000) else some (vmin, vmax)

/-- The display-range computation of s1_extract_images.py `main` (lines
193-205), taking the percentile result as input: a caller-supplied fixed
range is used as given with no percentile computation; a percentile-derived
range is clamped by `vmin = max(vmin, -35)` and `vmax = min(vmax, 5)`,
then the degenerate-range fix `vmax = vmin + 0.1` applies when the clamp
crossed the bounds. -/
def extract_display_range (fixed : Option (ℚ × ℚ)) (pct : Option (ℚ × ℚ)) :
    Option (ℚ × ℚ) :=
  match fixed with
  | some r => some r
  | none =>
    match pct with
    | none => none
    | some (lo, hi) =>
      let vmin := max lo (-35)
      let vmax := min hi 5
      if vmax ≤ vmin then some (vmin, vmin + 1 / 10) else some (vmin, vmax)

/-! ## Concrete inputs used by the witnesses -/

/-- A concrete record: VV/before, value 2 everywhere, all pixels valid. -/
def recA : AvgRec := ⟨.before, .VV, fun _ => 2, fun _ => true⟩

/-- A concrete record: VV/before, value 4 everywhere, all pixels valid. -/
def recB : AvgRec := ⟨.before, .VV, fun _ => 4, fun _ => true⟩

/-- A concrete record with no valid pixel. -/
def recC : AvgRec := ⟨.before, .VV, fun _ => 7, fun _ => false⟩

/-- A concrete two-band raster with no usable metadata (resolver falls
back to band 1 = VV, band 2 = VH) whose cells are all NaN. -/
def dsC : DS := ⟨2, [], fun _ _ => none, fun _ _ => Val.nan, none⟩

/-- A concrete grid descriptor. -/
def gridC : GridRef := ⟨4326, (1, 0, 0, 0, 1, 0), 4, 4⟩

/-- A concrete stand-in for `reproject_to_ref` on value/mask samples. -/
def reprojC : ((ℕ → Val) × (ℕ → Bool)) → GridRef → GridRef → ((ℕ → Val) × (ℕ → Bool)) :=
  fun _ _ _ => (fun _ => Val.nan, fun _ => false)

/-- A concrete stand-in for `reproject_to_ref` on rational samples. -/
def reprojQ : QSample → GridRef → GridRef → QSample :=
  fun _ _ _ => (fun _ => 0, fun _ => true)

/-- A concrete all-valid sample of constant value 1. -/
def sampB : QSample := (fun _ => 1, fun _ => false)

/-- A concrete all-valid sample of constant value 3. -/
def sampA : QSample := (fun _ => 3, fun _ => false)

/-- A concrete all-valid value/mask band of constant value 1. -/
def bandC : (ℕ → Val) × (ℕ → Bool) := (fun _ => Val.fin 1, fun _ => false)

/-! ## Lemmas about the accumulator -/

lemma accumulate_append (rs : List AvgRec) (r : AvgRec) :
    accumulate (rs ++ [r]) = accStep (accumulate rs) r := by
  simp [accumulate, List.foldl_append]

lemma recsFor_append_pos {r : AvgRec} {g : TGrp} {p : Pol}
    (h : g = r.which ∧ p = r.pol) (rs : List AvgRec) :
    recsFor (rs ++ [r]) g p = recsFor rs g p ++ [r] := by
  simp [recsFor, List.filter_append, List.filter_cons, h.1.symm, h.2.symm]

lemma recsFor_append_neg {r : AvgRec} {g : TGrp} {p : Pol}
    (h : ¬(g = r.which ∧ p = r.pol)) (rs : List AvgRec) :
    recsFor (rs ++ [r]) g p = recsFor rs g p := by
  have hb : (decide (r.which = g) && decide (r.pol = p)) = false := by
    rcases Decidable.em (r.which = g) with h1 | h1
    · rcases Decidable.em (r.pol = p) with h2 | h2
      · exact absurd ⟨h1.symm, h2.symm⟩ h
      · simp [h2]
    · simp [h1]
  simp [recsFor, List.filter_append, List.filter_cons, hb]

lemma sumAt_append_pos {r : AvgRec} {g : TGrp} {p : Pol}
    (h : g = r.which ∧ p = r.pol) (rs : List AvgRec) (i : ℕ) :
    sumAt (rs ++ [r]) g p i = sumAt rs g p i + (if r.valid i then r.data i else 0) := by
  rw [sumAt, recsFor_append_pos h]
  by_cases hv : r.valid i = true
  · simp [sumAt, List.filter_append, List.filter_cons, hv]
  · simp [sumAt, List.filter_append, List.filter_cons, hv]

lemma cntAt_append_pos {r : AvgRec} {g : TGrp} {p : Pol}
    (h : g = r.which ∧ p = r.pol) (rs : List AvgRec) (i : ℕ) :
    cntAt (rs ++ [r]) g p i = cntAt rs g p i + (if r.valid i then 1 else 0) := by
  rw [cntAt, recsFor_append_pos h]
  by_cases hv : r.valid i = true
  · simp [cntAt, List.filter_append, List.filter_cons, hv]
  · simp [cntAt, List.filter_append, List.filter_cons, hv]

lemma sumAt_append_neg {r : AvgRec} {g : TGrp} {p : Pol}
    (h : ¬(g = r.which ∧ p = r.pol)) (rs : List AvgRec) (i : ℕ) :
    sumAt (rs ++ [r]) g p i = sumAt rs g p i := by
  unfold sumAt
  rw [recsFor_append_neg h]

lemma cntAt_append_neg {r : AvgRec} {g : TGrp} {p : Pol}
    (h : ¬(g = r.which ∧ p = r.pol)) (rs : List AvgRec) (i : ℕ) :
    cntAt (rs ++ [r]) g p i = cntAt rs g p i := by
  unfold cntAt
  rw [recsFor_append_neg h]

lemma sumAt_of_recsFor_nil {rs : List AvgRec} {g : TGrp} {p : Pol}
    (h : recsFor rs g p = []) (i : ℕ) : sumAt rs g p i = 0 := by
  simp [sumAt, h]

lemma cntAt_of_recsFor_nil {rs : List AvgRec} {g : TGrp} {p : Pol}
    (h : recsFor rs g p = []) (i : ℕ) : cntAt rs g p i = 0 := by
  simp [cntAt, h]

/-- The imperative accumulation loop computes exactly the per-pixel sums
and counts over the contributing records, and stays uninitialized exactly
when no record contributes. -/
theorem accumulate_models (rs : List AvgRec) (g : TGrp) (p : Pol) :
    (accumulate rs g p = none ↔ recsFor rs g p = []) ∧
    (∀ sc, accumulate rs g p = some sc →
      ∀ i, sc.1 i = sumAt rs g p i ∧ sc.2 i = cntAt rs g p i) := by
  induction rs using List.reverseRecOn with
  | nil =>
    refine ⟨by simp [accumulate, recsFor], ?_⟩
    intro sc h
    simp [accumulate] at h
  | append_singleton rs r ih =>
    have hacc : accumulate (rs ++ [r]) g p = accStep (accumulate rs) r g p := by
      rw [accumulate_append]
    by_cases hm : (g = r.which ∧ p = r.pol)
    · have hstep : accStep (accumulate rs) r g p =
          some (fun i => if r.valid i then ((accumulate rs g p).getD (fun _ => 0, fun _ => 0)).1 i + r.data i
                         else ((accumulate rs g p).getD (fun _ => 0, fun _ => 0)).1 i,
                fun i => if r.valid i then ((accumulate rs g p).getD (fun _ => 0, fun _ => 0)).2 i + 1
                         else ((accumulate rs g p).getD (fun _ => 0, fun _ => 0)).2 i) := by
        simp [accStep, hm]
      constructor
      · rw [hacc, hstep, recsFor_append_pos hm]
        simp
      · intro sc hsc i
        rw [hacc, hstep] at hsc
        have hsc1 := congrArg (fun o => (Option.getD o (fun _ => 0, fun _ => 0)).1 i) hsc
        have hsc2 := congrArg (fun o => (Option.getD o (fun _ => 0, fun _ => 0)).2 i) hsc
        simp only [Option.getD_some] at hsc1 hsc2
        rw [sumAt_append_pos hm, cntAt_append_pos hm]
        cases hprev : accumulate rs g p with
        | none =>
          have hnil := ih.1.mp hprev
          rw [hprev] at hsc1 hsc2
          simp only [Option.getD_none] at hsc1 hsc2
          rw [sumAt_of_recsFor_nil hnil, cntAt_of_recsFor_nil hnil]
          constructor
          · rw [← hsc1]; by_cases hv : r.valid i = true <;> simp [hv]
          · rw [← hsc2]; by_cases hv : r.valid i = true <;> simp [hv]
        | some sc0 =>
          have hih := ih.2 sc0 hprev i
          rw [hprev] at hsc1 hsc2
          simp only [Option.getD_some] at hsc1 hsc2
          constructor
          · rw [← hsc1, hih.1.symm]; by_cases hv : r.valid i = true <;> simp [hv]
          · rw [← hsc2, hih.2.symm]; by_cases hv : r.valid i = true <;> simp [hv]
    · have hstep : accStep (accumulate rs) r g p = accumulate rs g p := by
        simp [accStep, hm]
      rw [hacc, hstep, recsFor_append_neg hm]
      refine ⟨ih.1, ?_⟩
      intro sc hsc i
      rcases ih.2 sc hsc i with ⟨h1, h2⟩
      rw [sumAt_append_neg hm, cntAt_append_neg hm]
      exact ⟨h1, h2⟩

lemma avgOutput_isSome_iff (n : ℕ) (rs : List AvgRec) (g : TGrp) (p : Pol) :
    (avgOutput n rs g p).isSome = true ↔ ∃ i, i < n ∧ 0 < cntAt rs g p i := by
  unfold avgOutput
  cases hacc : accumulate rs g p with
  | none =>
    have hnil := (accumulate_models rs g p).1.mp hacc
    simp only [Option.isSome_none, Bool.false_eq_true, false_iff]
    rintro ⟨i, _, hc⟩
    rw [cntAt_of_recsFor_nil hnil] at hc
    exact absurd hc (lt_irrefl 0)
  | some sc =>
    have hmod := (accumulate_models rs g p).2 sc hacc
    by_cases hany : ((List.range n).any fun i => decide (0 < sc.2 i)) = true
    · simp only [hany, if_true, Option.isSome_some, true_iff]
      rcases List.any_eq_true.mp hany with ⟨i, hi, hd⟩
      refine ⟨i, List.mem_range.mp hi, ?_⟩
      rw [← (hmod i).2]
      exact of_decide_eq_true hd
    · simp only [hany, if_false, Option.isSome_none, Bool.false_eq_true, false_iff]
      rintro ⟨i, hi, hc⟩
      apply hany
      refine List.any_eq_true.mpr ⟨i, List.mem_range.mpr hi, ?_⟩
      have hp : 0 < sc.2 i := by rw [(hmod i).2]; exact hc
      exact decide_eq_true hp

lemma avgOutput_some_char {n : ℕ} {rs : List AvgRec} {g : TGrp} {p : Pol}
    {grid : ℕ → ℚ} (hgrid : avgOutput n rs g p = some grid) :
    ∀ i, (0 < cntAt rs g p i → grid i = sumAt rs g p i / (cntAt rs g p i : ℚ)) ∧
         (cntAt rs g p i = 0 → grid i = NODATA_OUT) := by
  unfold avgOutput at hgrid
  cases hacc : accumulate rs g p with
  | none =>
    rw [hacc] at hgrid
    have hgrid2 : (none : Option (ℕ → ℚ)) = some grid := hgrid
    cases hgrid2
  | some sc =>
    rw [hacc] at hgrid
    have hgrid2 : (if ((List.range n).any fun i => decide (0 < sc.2 i)) = true then
        some (fun i => if 0 < sc.2 i then sc.1 i / ((sc.2 i : ℕ) : ℚ) else NODATA_OUT)
      else none) = some grid := hgrid
    have hmod := (accumulate_models rs g p).2 sc hacc
    by_cases hany : ((List.range n).any fun i => decide (0 < sc.2 i)) = true
    · rw [if_pos hany] at hgrid2
      have hg := (Option.some.injEq _ _).mp hgrid2
      intro i
      constructor
      · intro hc
        rw [← hg]
        simp only [(hmod i).1, (hmod i).2]
        rw [if_pos hc]
      · intro hc
        rw [← hg]
        simp only [(hmod i).1, (hmod i).2]
        have hn : ¬ 0 < cntAt rs g p i := by rw [hc]; exact lt_irrefl 0
        rw [if_neg hn]
    · rw [if_neg hany] at hgrid2
      cases hgrid2

/-- C1: the averager writes a raster for a (group, polarization) pair
exactly when some pixel has a positive count; the written value is
`sum/count` at pixels with positive count and the sentinel `-9999.0`
elsewhere; and for a pair with exactly one contributing record the mean at
every valid pixel equals that record's value there. -/
theorem C1_averager_mean (n : ℕ) (rs : List AvgRec) (g : TGrp) (p : Pol) :
    ((avgOutput n rs g p).isSome = true ↔ ∃ i, i < n ∧ 0 < cntAt rs g p i) ∧
    (∀ grid, avgOutput n rs g p = some grid →
      ∀ i, (0 < cntAt rs g p i → grid i = sumAt rs g p i / (cntAt rs g p i : ℚ)) ∧
           (cntAt rs g p i = 0 → grid i = NODATA_OUT)) ∧
    (∀ r, recsFor rs g p = [r] →
      ∀ grid, avgOutput n rs g p = some grid →
        ∀ i, r.valid i = true → grid i = r.data i) := by
  refine ⟨avgOutput_isSome_iff n rs g p, fun grid hgrid => avgOutput_some_char hgrid, ?_⟩
  intro r hr grid hgrid i hv
  have hcnt : cntAt rs g p i = 1 := by
    rw [cntAt, hr]
    simp [List.filter_cons, hv]
  have hsum : sumAt rs g p i = r.data i := by
    rw [sumAt, hr]
    simp [List.filter_cons, hv]
  have hchar := (avgOutput_some_char hgrid i).1 (by rw [hcnt]; exact one_pos)
  rw [hchar, hcnt, hsum]
  norm_num

/-- Witness for C1 at a concrete one-record input. -/
theorem C1_averager_mean_witness :
    ∃ grid, avgOutput 1 [recA] TGrp.before Pol.VV = some grid ∧ grid 0 = 2 := by
  have h := C1_averager_mean 1 [recA] TGrp.before Pol.VV
  have hrecs : recsFor [recA] TGrp.before Pol.VV = [recA] := rfl
  have hcnt : cntAt [recA] TGrp.before Pol.VV 0 = 1 := rfl
  have hsome : (avgOutput 1 [recA] TGrp.before Pol.VV).isSome = true :=
    h.1.mpr ⟨0, Nat.zero_lt_one, by rw [hcnt]; exact Nat.zero_lt_one⟩
  obtain ⟨grid, hgrid⟩ := Option.isSome_iff_exists.mp hsome
  refine ⟨grid, hgrid, ?_⟩
  have hval := h.2.2 recA hrecs grid hgrid 0 rfl
  rw [hval]
  rfl

/-! ## Order independence of the accumulation -/

lemma accStep_apply_pos (s : AccSt) (r : AvgRec) {g : TGrp} {p : Pol}
    (h : g = r.which ∧ p = r.pol) :
    accStep s r g p =
      some (fun i => if r.valid i then ((s g p).getD (fun _ => 0, fun _ => 0)).1 i + r.data i
                     else ((s g p).getD (fun _ => 0, fun _ => 0)).1 i,
            fun i => if r.valid i then ((s g p).getD (fun _ => 0, fun _ => 0)).2 i + 1
                     else ((s g p).getD (fun _ => 0, fun _ => 0)).2 i) := by
  unfold accStep
  rw [if_pos h]

lemma accStep_apply_neg (s : AccSt) (r : AvgRec) {g : TGrp} {p : Pol}
    (h : ¬(g = r.which ∧ p = r.pol)) :
    accStep s r g p = s g p := by
  unfold accStep
  rw [if_neg h]

lemma accStep_comm (s : AccSt) (r1 r2 : AvgRec) :
    accStep (accStep s r1) r2 = accStep (accStep s r2) r1 := by
  funext g p
  by_cases h1 : (g = r1.which ∧ p = r1.pol)
  · by_cases h2 : (g = r2.which ∧ p = r2.pol)
    · rw [accStep_apply_pos (accStep s r1) r2 h2, accStep_apply_pos s r1 h1,
          accStep_apply_pos (accStep s r2) r1 h1, accStep_apply_pos s r2 h2]
      simp only [Option.getD_some, Option.some.injEq]
      refine Prod.ext ?_ ?_ <;> funext i <;> cases hv1 : r1.valid i <;>
        cases hv2 : r2.valid i <;> (simp [hv1, hv2]; try ring)
    · rw [accStep_apply_neg (accStep s r1) r2 h2, accStep_apply_pos s r1 h1,
          accStep_apply_pos (accStep s r2) r1 h1, accStep_apply_neg s r2 h2]
  · by_cases h2 : (g = r2.which ∧ p = r2.pol)
    · rw [accStep_apply_pos (accStep s r1) r2 h2, accStep_apply_neg s r1 h1,
          accStep_apply_neg (accStep s r2) r1 h1, accStep_apply_pos s r2 h2]
    · rw [accStep_apply_neg (accStep s r1) r2 h2, accStep_apply_neg s r1 h1,
          accStep_apply_neg (accStep s r2) r1 h1, accStep_apply_neg s r2 h2]

lemma foldl_perm_accStep {l1 l2 : List AvgRec} (h : l1.Perm l2) :
    ∀ s : AccSt, l1.foldl accStep s = l2.foldl accStep s := by
  induction h with
  | nil => intro s; rfl
  | cons x _ ih => intro s; simp only [List.foldl_cons]; exact ih _
  | swap x y l => intro s; simp only [List.foldl_cons, accStep_comm]
  | trans _ _ ih1 ih2 => intro s; rw [ih1, ih2]

/-- C8: permuting the processing order of the contributing records does
not change any written output raster of the averager. -/
theorem C8_order_independent (n : ℕ) (rs1 rs2 : List AvgRec) (g : TGrp) (p : Pol)
    (h : rs1.Perm rs2) : avgOutput n rs1 g p = avgOutput n rs2 g p := by
  unfold avgOutput accumulate
  rw [foldl_perm_accStep h]

/-- Witness for C8 at a concrete two-record input. -/
theorem C8_order_independent_witness :
    avgOutput 1 [recA, recB] TGrp.before Pol.VV =
      avgOutput 1 [recB, recA] TGrp.before Pol.VV :=
  C8_order_independent 1 [recA, recB] [recB, recA] TGrp.before Pol.VV
    (List.Perm.swap recB recA [])

/-! ## Date extraction claims -/

/-- C2: date extraction tries the `YYYYMMDDT` pattern first and the
separated pattern second; dates strictly before 2023-07-18 fall in the
"before" group and all others (the threshold included) in the "after"
group; and the three concrete examples behave as stated. -/
theorem C2_date_extraction :
    (∀ s g, searchPat1 s.toList = some g →
      extract_date_from_name s =
        (match mkDate g.1 g.2.1 g.2.2 with
         | some dt => DateRes.found dt
         | none => DateRes.raised)) ∧
    extract_date_from_name "S1A_20230712T013245_..." = .found ⟨2023, 7, 12⟩ ∧
    groupOf ⟨2023, 7, 12⟩ = .before ∧
    extract_date_from_name "2023-07-20_VV.tif" = .found ⟨2023, 7, 20⟩ ∧
    groupOf ⟨2023, 7, 20⟩ = .after ∧
    extract_date_from_name "no_date_here.tif" = .noDate ∧
    groupOf THRESHOLD = .after ∧
    (∀ dt, groupOf dt = .before ↔ PyDate.lt dt THRESHOLD = true) := by
  refine ⟨?_, by decide, by decide, by decide, by decide, by decide, by decide, ?_⟩
  · intro s g h
    obtain ⟨y, m, d⟩ := g
    unfold extract_date_from_name
    rw [h]
  · intro dt
    unfold groupOf
    by_cases h : PyDate.lt dt THRESHOLD = true
    · simp [h]
    · simp [h]

/-- Witness for C2: the priority clause applied at a concrete filename. -/
theorem C2_date_extraction_witness :
    extract_date_from_name "20230718T" =
      (match mkDate 2023 7 18 with
       | some dt => DateRes.found dt
       | none => DateRes.raised) :=
  C2_date_extraction.1 "20230718T" (2023, 7, 18) (by decide)

/-- C3: the extraction step is claimed never to raise, but on the input
`"20230239T"` the digits match pattern 1 and the `date` constructor
raises an uncaught `ValueError` (day 39 is out of range for February), so
the averager aborts instead of skipping the file. -/
theorem C3_extraction_raises :
    extract_date_from_name "20230239T" = .raised := by decide

/-! ## Masked-reader claim -/

/-- C6: the reader's mask is true exactly at pixels whose value is
non-finite or IEEE-equal to the declared non-NaN no-data value, and a NaN
no-data value is treated as no declared sentinel. -/
theorem C6_reader_mask (arr : ℕ → Val) (nd : Option Val) (i : ℕ) :
    (maskOf arr nd i = true ↔
      ((arr i).isFinite = false ∨
        ∃ v, nd = some v ∧ v.isNan = false ∧ Val.ieeeEq (arr i) v = true)) ∧
    (∀ v, nd = some v → v.isNan = true → maskOf arr nd i = !(arr i).isFinite) := by
  constructor
  · cases nd with
    | none => simp [maskOf]
    | some v =>
      by_cases hn : v.isNan = true
      · simp [maskOf, hn]
      · have hn' : v.isNan = false := by
          cases hvb : v.isNan with
          | false => rfl
          | true => exact absurd hvb hn
        simp [maskOf, hn', hn]
  · intro v hv hn
    subst hv
    simp [maskOf, hn]

/-- Witness for C6: a NaN no-data value declared on an all-NaN band. -/
theorem C6_reader_mask_witness :
    maskOf (fun _ => Val.nan) (some Val.nan) 0 = !(Val.nan).isFinite :=
  (C6_reader_mask (fun _ => Val.nan) (some Val.nan) 0).2 Val.nan rfl rfl

/-! ## Alignment claim -/

/-- C7: for a masked sample on a grid equal to the reference grid, the
alignment step is the identity transform: the output validity mask is the
complement of the input mask and the values at valid pixels are unchanged,
for every reprojection function (none is invoked). -/
theorem C7_align_identity
    (reproj : ((ℕ → Val) × (ℕ → Bool)) → GridRef → GridRef → ((ℕ → Val) × (ℕ → Bool)))
    (dsGrid ref : GridRef) (band : (ℕ → Val) × (ℕ → Bool))
    (hsg : same_grid dsGrid ref = true)
    (hinv : ∀ i, band.2 i = false → (band.1 i).isFinite = true) :
    (∀ i, (alignToRef reproj dsGrid ref band).2 i = !band.2 i) ∧
    (∀ i, band.2 i = false → (alignToRef reproj dsGrid ref band).1 i = band.1 i) := by
  unfold alignToRef
  rw [if_pos hsg]
  constructor
  · intro i
    cases hm : band.2 i with
    | false => simp [hm, hinv i hm]
    | true => simp [hm]
  · intro i hm
    simp [hm]

/-- Witness for C7 at concrete equal grids and an all-valid band. -/
theorem C7_align_identity_witness :
    (alignToRef reprojC gridC gridC bandC).2 0 = !bandC.2 0 ∧
    (alignToRef reprojC gridC gridC bandC).1 0 = bandC.1 0 := by
  have h := C7_align_identity reprojC gridC gridC bandC (by simp [same_grid])
    (fun i _ => rfl)
  exact ⟨h.1 0, h.2 0 rfl⟩

/-! ## Resolver equivalence lemmas -/

lemma optOrElse_assoc (a b c : Option ℕ) :
    ((a.orElse fun _ => b).orElse fun _ => c) =
      (a.orElse fun _ => (b.orElse fun _ => c)) := by
  cases a <;> rfl

lemma orElse_none_right (a : Option ℕ) : (a.orElse fun _ => none) = a := by
  cases a <;> rfl

lemma foldl_pair {α : Type} (f : Option ℕ × Option ℕ → α → Option ℕ × Option ℕ)
    (f1 f2 : Option ℕ → α → Option ℕ)
    (hf : ∀ x e, f x e = (f1 x.1 e, f2 x.2 e)) (l : List α) (x : Option ℕ × Option ℕ) :
    l.foldl f x = (l.foldl f1 x.1, l.foldl f2 x.2) := by
  induction l generalizing x with
  | nil => rfl
  | cons e t ih =>
    simp only [List.foldl_cons]
    rw [hf x e]
    exact ih _

lemma foldl_setIfNone {α : Type} (g : α → Option ℕ) (f1 : Option ℕ → α → Option ℕ)
    (hf : ∀ acc e, f1 acc e = acc.orElse fun _ => g e) (l : List α) (acc : Option ℕ) :
    l.foldl f1 acc = acc.orElse fun _ => l.findSome? g := by
  induction l generalizing acc with
  | nil =>
    simp only [List.foldl_nil, List.findSome?_nil]
    exact (orElse_none_right acc).symm
  | cons e t ih =>
    simp only [List.foldl_cons]
    rw [hf acc e, ih, optOrElse_assoc]
    congr 1
    funext u
    cases hg : g e <;> simp [List.findSome?_cons, hg, Option.orElse]

/-- Projection of the description-loop body onto one polarization. -/
def setPolDesc (pol : String) (acc : Option ℕ) (e : ℕ × Option String) : Option ℕ :=
  match e.2 with
  | none => acc
  | some s =>
    if s = "" then acc
    else if stripUpper s = pol && acc.isNone then some e.1 else acc

lemma descStep_decomp (x : Option ℕ × Option ℕ) (e : ℕ × Option String) :
    descStep x e = (setPolDesc "VV" x.1 e, setPolDesc "VH" x.2 e) := by
  cases he : e.2 with
  | none => simp [descStep, setPolDesc, he]
  | some s => by_cases hs : s = "" <;> simp [descStep, setPolDesc, he, hs]

lemma setPolDesc_eq (pol : String) (acc : Option ℕ) (e : ℕ × Option String) :
    setPolDesc pol acc e = acc.orElse fun _ => descMatch pol e := by
  cases acc with
  | some a =>
    cases he : e.2 with
    | none => simp [setPolDesc, he, Option.orElse]
    | some s => by_cases hs : s = "" <;> simp [setPolDesc, he, hs, Option.orElse]
  | none =>
    cases he : e.2 with
    | none => simp [setPolDesc, descMatch, he, Option.orElse]
    | some s =>
      by_cases hs : s = "" <;> by_cases hm : stripUpper s = pol <;>
        simp [setPolDesc, descMatch, he, hs, hm, Option.orElse]

lemma descPhase (descs : List (Option String)) :
    (List.enumFrom 1 descs).foldl descStep (none, none) =
      (descFind descs "VV", descFind descs "VH") := by
  rw [foldl_pair descStep (setPolDesc "VV") (setPolDesc "VH") descStep_decomp]
  rw [foldl_setIfNone (descMatch "VV") (setPolDesc "VV") (setPolDesc_eq "VV"),
      foldl_setIfNone (descMatch "VH") (setPolDesc "VH") (setPolDesc_eq "VH")]
  simp [descFind, Option.orElse]

/-- Projection of the tag-key-loop body onto one polarization. -/
def setPolKey (pol : String) (tg : String → Option String) (i : ℕ)
    (acc : Option ℕ) (k : String) : Option ℕ :=
  match tg k with
  | none => acc
  | some v =>
    if v = "" then acc
    else if stripUpper v = pol && acc.isNone then some i else acc

lemma tagStepKey_decomp (tg : String → Option String) (i : ℕ)
    (x : Option ℕ × Option ℕ) (k : String) :
    tagStepKey tg i x k = (setPolKey "VV" tg i x.1 k, setPolKey "VH" tg i x.2 k) := by
  cases hk : tg k with
  | none => simp [tagStepKey, setPolKey, hk]
  | some v => by_cases hv : v = "" <;> simp [tagStepKey, setPolKey, hk, hv]

lemma setPolKey_eq (pol : String) (tg : String → Option String) (i : ℕ)
    (acc : Option ℕ) (k : String) :
    setPolKey pol tg i acc k =
      acc.orElse fun _ => (if tagMatchKey pol tg k then some i else none) := by
  cases acc with
  | some a =>
    cases hk : tg k with
    | none => simp [setPolKey, hk, Option.orElse]
    | some v => by_cases hv : v = "" <;> simp [setPolKey, hk, hv, Option.orElse]
  | none =>
    cases hk : tg k with
    | none => simp [setPolKey, tagMatchKey, hk, Option.orElse]
    | some v =>
      by_cases hv : v = "" <;> by_cases hm : stripUpper v = pol <;>
        simp [setPolKey, tagMatchKey, hk, hv, hm, Option.orElse]

lemma findSome?_guard {α : Type} (p : α → Bool) (i : ℕ) (l : List α) :
    (l.findSome? fun k => if p k then some i else none) =
      (if l.any p then some i else none) := by
  induction l with
  | nil => simp
  | cons k t ih => by_cases hp : p k = true <;> simp [List.findSome?_cons, hp, ih]

lemma tagBandFold_eq (tags : ℕ → String → Option String)
    (x : Option ℕ × Option ℕ) (i : ℕ) :
    tagBandFold tags x i =
      (x.1.orElse fun _ => (if bandMatch "VV" tags i then some i else none),
       x.2.orElse fun _ => (if bandMatch "VH" tags i then some i else none)) := by
  unfold tagBandFold bandMatch
  rw [foldl_pair (tagStepKey (tags i) i) (setPolKey "VV" (tags i) i)
        (setPolKey "VH" (tags i) i) (tagStepKey_decomp (tags i) i)]
  rw [foldl_setIfNone (fun k => if tagMatchKey "VV" (tags i) k then some i else none)
        (setPolKey "VV" (tags i) i) (setPolKey_eq "VV" (tags i) i),
      foldl_setIfNone (fun k => if tagMatchKey "VH" (tags i) k then some i else none)
        (setPolKey "VH" (tags i) i) (setPolKey_eq "VH" (tags i) i)]
  rw [findSome?_guard, findSome?_guard]

lemma bandsPhase (tags : ℕ → String → Option String) (bands : List ℕ)
    (x : Option ℕ × Option ℕ) :
    bands.foldl (tagBandFold tags) x =
      (x.1.orElse fun _ =>
         bands.findSome? (fun i => if bandMatch "VV" tags i then some i else none),
       x.2.orElse fun _ =>
         bands.findSome? (fun i => if bandMatch "VH" tags i then some i else none)) := by
  rw [foldl_pair (tagBandFold tags)
        (fun acc i => acc.orElse fun _ => (if bandMatch "VV" tags i then some i else none))
        (fun acc i => acc.orElse fun _ => (if bandMatch "VH" tags i then some i else none))
        (tagBandFold_eq tags)]
  rw [foldl_setIfNone (fun i => if bandMatch "VV" tags i then some i else none)
        (fun acc i => acc.orElse fun _ => (if bandMatch "VV" tags i then some i else none))
        (fun _ _ => rfl),
      foldl_setIfNone (fun i => if bandMatch "VH" tags i then some i else none)
        (fun acc i => acc.orElse fun _ => (if bandMatch "VH" tags i then some i else none))
        (fun _ _ => rfl)]

lemma setIfNone_guard (b : Bool) (j : ℕ) (x : Option ℕ) :
    (if b && x.isNone then some j else x) =
      x.orElse fun _ => (if b then some j else none) := by
  cases x <;> cases b <;> simp [Option.orElse]

lemma setIfNone_chain (b : Bool) (j : ℕ) (d t : Option ℕ) :
    (if b = true ∧ d = none ∧ t = none then some j
     else d.orElse fun _ => t) =
      d.orElse fun _ => (t.orElse fun _ => if b = true then some j else none) := by
  cases d <;> cases t <;> cases b <;> simp [Option.orElse]

/-- C5: the imperative resolver equals the specification's ordered chain
of lookups — per-band descriptions first, then per-band tags under the
probed keys, then the single-band filename hint, composed first-match-wins
per polarization, with the positional fallback band 1 = VV, band 2 = VH
for rasters with at least two bands when no step resolved either
polarization; a polarization matched by no step is absent. -/
theorem C5_resolver_first_match (ds : DS) (filename : String) :
    find_vv_vh_indices ds filename = resolveSpec ds filename := by
  have h12 : ((List.range ds.count).map (· + 1)).foldl (tagBandFold ds.tags)
      ((List.enumFrom 1 ds.descriptions).foldl descStep (none, none)) =
      ((descFind ds.descriptions "VV").orElse fun _ => tagFind ds.count ds.tags "VV",
       (descFind ds.descriptions "VH").orElse fun _ => tagFind ds.count ds.tags "VH") := by
    rw [descPhase, bandsPhase]
    rfl
  simp only [find_vv_vh_indices, resolveSpec]
  rw [h12]
  by_cases hc1 : ds.count = 1
  · simp only [hc1, fnameHint]
    norm_num
    exact ⟨setIfNone_chain _ 1 _ _, setIfNone_chain _ 1 _ _⟩
  · simp only [hc1, fnameHint]
    norm_num [orElse_none_right]

/-! ## Burn-ratio claims -/

/-- C4: a pixel of the written burn-ratio raster is valid iff it is valid
in both inputs and the guarded denominator is nonzero; valid pixels carry
`(after - before) / (after + before + EPS)` and every invalid pixel
carries the sentinel `-9999.0`. -/
theorem C4_rbr_formula (b a : QSample) (i : ℕ) :
    ((rbrOut b a).2 i = true ↔
      (b.2 i = false ∧ a.2 i = false ∧ a.1 i + b.1 i + EPS ≠ 0)) ∧
    ((rbrOut b a).2 i = true →
      (rbrOut b a).1 i = (a.1 i - b.1 i) / (a.1 i + b.1 i + EPS)) ∧
    ((rbrOut b a).2 i = false → (rbrOut b a).1 i = NODATA_OUT) := by
  cases hb : b.2 i <;> cases ha : a.2 i <;>
    simp [rbrOut, compute_rbr, hb, ha]
  exact ⟨fun h1 h2 => absurd h2 h1, fun h1 h2 => absurd h1 h2⟩

/-- Witness for C4 at the spec's concrete scenario before = 1, after = 3. -/
theorem C4_rbr_formula_witness :
    (rbrOut sampB sampA).2 0 = true ∧
    (rbrOut sampB sampA).1 0 = ((3 : ℚ) - 1) / (3 + 1 + EPS) := by
  have h := C4_rbr_formula sampB sampA 0
  have hden : sampA.1 0 + sampB.1 0 + EPS ≠ 0 := by norm_num [sampA, sampB, EPS]
  have hval : (rbrOut sampB sampA).2 0 = true := h.1.mpr ⟨rfl, rfl, hden⟩
  exact ⟨hval, h.2.1 hval⟩

lemma rbrOut_invalid (b a : QSample) (i : ℕ)
    (h : (rbrOut b a).2 i = false) : (rbrOut b a).1 i = NODATA_OUT := by
  have hm : (compute_rbr b a).2 i = true := by
    have hnot : (!(compute_rbr b a).2 i) = false := h
    cases hc : (compute_rbr b a).2 i with
    | true => rfl
    | false => rw [hc] at hnot; cases hnot
  show (if (compute_rbr b a).2 i then NODATA_OUT else (compute_rbr b a).1 i) = NODATA_OUT
  rw [hm]
  simp

lemma rbr_pol_result_shape (dsB dsA : DS) (nameB nameA : String)
    (profB profA : GridRef) (reproj : QSample → GridRef → GridRef → QSample)
    (toLin : ℚ → ℚ) (db : Bool) (pol : Pol) (out : ℕ → ℚ) (valid : ℕ → Bool)
    (h : rbr_pol_result dsB dsA nameB nameA profB profA reproj toLin db pol
          = some (out, valid)) :
    ∃ b2 a2, (out, valid) = rbrOut b2 a2 := by
  unfold rbr_pol_result at h
  cases hB : polIdx (find_vv_vh_indices dsB nameB) pol with
  | none =>
    rw [hB] at h
    have h2 : (none : Option ((ℕ → ℚ) × (ℕ → Bool))) = some (out, valid) := h
    cases h2
  | some bi =>
    cases hA : polIdx (find_vv_vh_indices dsA nameA) pol with
    | none =>
      rw [hB, hA] at h
      have h2 : (none : Option ((ℕ → ℚ) × (ℕ → Bool))) = some (out, valid) := h
      cases h2
    | some ai =>
      rw [hB, hA] at h
      have h2 : some (rbrOut
          (if db then ((fun i => toLin ((read_band_masked_q dsB bi).1 i)),
                       (read_band_masked_q dsB bi).2)
           else read_band_masked_q dsB bi)
          (if db then ((fun i => toLin ((if grids_match profB profA
                          then read_band_masked_q dsA ai
                          else reproj (read_band_masked_q dsA ai) profA profB).1 i)),
                       (if grids_match profB profA
                          then read_band_masked_q dsA ai
                          else reproj (read_band_masked_q dsA ai) profA profB).2)
           else (if grids_match profB profA
                   then read_band_masked_q dsA ai
                   else reproj (read_band_masked_q dsA ai) profA profB)))
          = some (out, valid) := h
      exact ⟨_, _, ((Option.some.injEq _ _).mp h2).symm⟩

/-- C10: the burn-ratio tool writes an output for a polarization exactly
when that polarization is resolved in both inputs — in particular it still
writes when no pixel is valid, in which case every pixel carries the
sentinel — whereas the averager writes nothing when no pixel has a
positive count. -/
theorem C10_rbr_always_writes (dsB dsA : DS) (nameB nameA : String)
    (profB profA : GridRef) (reproj : QSample → GridRef → GridRef → QSample)
    (toLin : ℚ → ℚ) (db : Bool) (pol : Pol) :
    ((rbr_pol_result dsB dsA nameB nameA profB profA reproj toLin db pol).isSome = true ↔
      ((polIdx (find_vv_vh_indices dsB nameB) pol).isSome = true ∧
       (polIdx (find_vv_vh_indices dsA nameA) pol).isSome = true)) ∧
    (∀ out valid, rbr_pol_result dsB dsA nameB nameA profB profA reproj toLin db pol
        = some (out, valid) → ∀ i, valid i = false → out i = NODATA_OUT) ∧
    (∀ n rs g p, (∀ i, i < n → cntAt rs g p i = 0) → avgOutput n rs g p = none) := by
  refine ⟨?_, ?_, ?_⟩
  · cases hB : polIdx (find_vv_vh_indices dsB nameB) pol with
    | none =>
      have hres : rbr_pol_result dsB dsA nameB nameA profB profA reproj toLin db pol
          = none := by
        unfold rbr_pol_result
        rw [hB]
      simp [hres, hB]
    | some bi =>
      cases hA : polIdx (find_vv_vh_indices dsA nameA) pol with
      | none =>
        have hres : rbr_pol_result dsB dsA nameB nameA profB profA reproj toLin db pol
            = none := by
          unfold rbr_pol_result
          rw [hB, hA]
        simp [hres, hA]
      | some ai =>
        have hres : (rbr_pol_result dsB dsA nameB nameA profB profA reproj toLin db pol).isSome
            = true := by
          unfold rbr_pol_result
          rw [hB, hA]
          rfl
        simp [hres, hB, hA]
  · intro out valid h i hv
    obtain ⟨b2, a2, hba⟩ := rbr_pol_result_shape dsB dsA nameB nameA profB profA
      reproj toLin db pol out valid h
    have hout : out = (rbrOut b2 a2).1 := congrArg Prod.fst hba
    have hvld : valid = (rbrOut b2 a2).2 := congrArg Prod.snd hba
    rw [hout]
    apply rbrOut_invalid
    rw [← hvld]
    exact hv
  · intro n rs g p hz
    unfold avgOutput
    cases hacc : accumulate rs g p with
    | none => rfl
    | some sc =>
      have hmod := (accumulate_models rs g p).2 sc hacc
      have hany : ((List.range n).any fun i => decide (0 < sc.2 i)) = false := by
        cases hc : (List.range n).any fun i => decide (0 < sc.2 i) with
        | false => rfl
        | true =>
          rcases List.any_eq_true.mp hc with ⟨i, hi, hd⟩
          have hpos : 0 < sc.2 i := of_decide_eq_true hd
          rw [(hmod i).2, hz i (List.mem_range.mp hi)] at hpos
          exact absurd hpos (lt_irrefl 0)
      have hgoal : (if ((List.range n).any fun i => decide (0 < sc.2 i)) = true then
          some (fun i => if 0 < sc.2 i then sc.1 i / ((sc.2 i : ℕ) : ℚ) else NODATA_OUT)
        else none) = none := by
        rw [hany]
        simp
      exact hgoal

/-- Witness for C10: a shared fallback-resolved polarization on all-NaN
bands is still written, entirely as the sentinel, while the averager with
one all-invalid record writes nothing. -/
theorem C10_rbr_always_writes_witness :
    rbr_pol_result dsC dsC "b.tif" "a.tif" gridC gridC reprojQ id false Pol.VV
        = some (rbrOut (read_band_masked_q dsC 1) (read_band_masked_q dsC 1)) ∧
    (rbrOut (read_band_masked_q dsC 1) (read_band_masked_q dsC 1)).1 0 = NODATA_OUT ∧
    avgOutput 1 [recC] TGrp.before Pol.VV = none := by
  have h := C10_rbr_always_writes dsC dsC "b.tif" "a.tif" gridC gridC reprojQ id false Pol.VV
  have hB : polIdx (find_vv_vh_indices dsC "b.tif") Pol.VV = some 1 := by decide
  have hA : polIdx (find_vv_vh_indices dsC "a.tif") Pol.VV = some 1 := by decide
  have hgm : grids_match gridC gridC = true := by simp [grids_match]
  have hres : rbr_pol_result dsC dsC "b.tif" "a.tif" gridC gridC reprojQ id false Pol.VV
      = some (rbrOut (read_band_masked_q dsC 1) (read_band_masked_q dsC 1)) := by
    unfold rbr_pol_result
    rw [hB, hA]
    simp [hgm]
  exact ⟨hres, h.2.1 _ _ hres 0 rfl, h.2.2 1 [recC] TGrp.before Pol.VV (fun i _ => rfl)⟩

/-! ## Preview-renderer claims -/

/-- C9, counterexample: in the single-image renderer a percentile-derived
display range is not clamped into [-35, 5] — a raster whose only valid
value is -50 yields vmin = -50 < -35, refuting the claim that every
percentile-derived preview range has vmin raised to at least -35. -/
theorem C9_no_clamp_counterexample :
    png_display_range none [-50] 2 98 = some (-50, -50 + 1 / 1000000) ∧
    ((-50 : ℚ) < -35) := by
  have hp : ∀ q : ℚ, percentileNp [-50] q = -50 := by
    intro q
    unfold percentileNp
    norm_num [sortQ, insSorted]
  constructor
  · norm_num [png_display_range, png_percentiles, hp]
  · norm_num

/-- C9, amended: only the batch renderer clamps — its percentile-derived
range has vmin raised to max(lo, -35) and, when that stays below the
clamped vmax, vmax lowered to min(hi, 5) ≤ 5, while in the degenerate case
vmax becomes vmin + 0.1 instead; a fixed caller-supplied range is used as
given in both renderers; the single-image renderer applies percentiles
with no clamping at all. -/
theorem C9_clamp_amended :
    (∀ r pct, extract_display_range (some r) pct = some r) ∧
    (∀ lo hi vmin vmax,
      extract_display_range none (some (lo, hi)) = some (vmin, vmax) →
        vmin = max lo (-35) ∧ (-35 : ℚ) ≤ vmin ∧
          ((max lo (-35) < min hi 5 ∧ vmax = min hi 5 ∧ vmax ≤ 5) ∨
           (min hi 5 ≤ max lo (-35) ∧ vmax = vmin + 1 / 10))) ∧
    (∀ r vals plo phi, png_display_range (some r) vals plo phi = some r) ∧
    (∀ vals plo phi vmin vmax, png_display_range none vals plo phi = some (vmin, vmax) →
      vmin = percentileNp vals plo) := by
  refine ⟨fun r pct => rfl, ?_, fun r vals plo phi => rfl, ?_⟩
  · intro lo hi vmin vmax h
    have h2 : (if min hi 5 ≤ max lo (-35)
          then some (max lo (-35), max lo (-35) + 1 / 10)
          else some (max lo (-35), min hi 5)) = some (vmin, vmax) := h
    by_cases hc : min hi 5 ≤ max lo (-35)
    · rw [if_pos hc] at h2
      have hpair := (Option.some.injEq _ _).mp h2
      have hv : max lo (-35) = vmin := congrArg Prod.fst hpair
      have hx : max lo (-35) + 1 / 10 = vmax := congrArg Prod.snd hpair
      refine ⟨hv.symm, ?_, Or.inr ⟨hc, by rw [← hv, ← hx]⟩⟩
      rw [← hv]
      exact le_max_right lo (-35)
    · rw [if_neg hc] at h2
      have hpair := (Option.some.injEq _ _).mp h2
      have hv : max lo (-35) = vmin := congrArg Prod.fst hpair
      have hx : min hi 5 = vmax := congrArg Prod.snd hpair
      refine ⟨hv.symm, ?_, Or.inl ⟨lt_of_not_le hc, hx.symm, ?_⟩⟩
      · rw [← hv]
        exact le_max_right lo (-35)
      · rw [← hx]
        exact min_le_right hi 5
  · intro vals plo phi vmin vmax h
    unfold png_display_range png_percentiles at h
    by_cases hv : vals = []
    · subst hv
      have h2 : (none : Option (ℚ × ℚ)) = some (vmin, vmax) := h
      cases h2
    · rw [if_neg hv] at h
      have h2 : (if percentileNp vals phi ≤ percentileNp vals plo
            then some (percentileNp vals plo, percentileNp vals plo + 1 / 1000000)
            else some (percentileNp vals plo, percentileNp vals phi)) = some (vmin, vmax) := h
      by_cases hc : percentileNp vals phi ≤ percentileNp vals plo
      · rw [if_pos hc] at h2
        have hpair := (Option.some.injEq _ _).mp h2
        exact (congrArg Prod.fst hpair).symm
      · rw [if_neg hc] at h2
        have hpair := (Option.some.injEq _ _).mp h2
        exact (congrArg Prod.fst hpair).symm

/-- Witness for C9 at concrete ranges: a fixed range passes through, and
a percentile range of [0, 10] clamps to [0, 5] with vmin at least -35. -/
theorem C9_clamp_amended_witness :
    extract_display_range (some (-25, 0)) none = some (-25, 0) ∧ (-35 : ℚ) ≤ 0 := by
  have h := C9_clamp_amended
  refine ⟨h.1 (-25, 0) none, ?_⟩
  have hres : extract_display_range none (some (0, 10)) = some (0, 5) := by
    norm_num [extract_display_range]
  exact (h.2.1 0 10 0 5 hres).2.1
